import Mathlib

/-
  Verification development for the timer-scheduling core of cellumation/rclcpp:
  a shallow embedding of `TimerQueue` / `TimerManager`
  (src/rclcpp/src/rclcpp/executors/detail/timer_manager.hpp) and of the
  `TestWaitable` readiness contract (test/rclcpp/executors/test_executors.cpp).

  Machine integers: the C++ code keys its ordered index by
  `std::chrono::nanoseconds` (int64) and counts triggers in an `unsigned int`
  (32 bit).  Times are embedded as `Int` (the developments below never rely on
  int64 wraparound; the one place the source cares about the int64 range is the
  sentinel of `get_next_timer_ready_time`, treated explicitly) and the trigger
  count as `Nat` reduced mod 2^32 where the C++ counter wraps.
-/

namespace RclcppTimers

/-- Clock domains, `rcl_clock_type_t`: RCL_ROS_TIME, RCL_SYSTEM_TIME,
RCL_STEADY_TIME. -/
inductive ClockType
  | ros
  | system
  | steady
deriving DecidableEq

/-- Modelled from the spec: the external Timer resource handle (`rcl_timer_t`,
consumed by this repository but implemented outside it).  §6 of the spec gives
its contract: `arm_or_call() -> Ok | Cancelled`,
`time_until_next_call() -> Duration | Cancelled`, `next_call_time() -> Time`.
`canceled` makes both fallible calls report Cancelled; `valid` records whether
`rcl_timer_get_next_call_time` succeeds (RCL_RET_OK); `unique` records whether
the queue's `shared_ptr` is the only remaining reference (the
`rcl_ref.unique()` liveness test in the source). -/
structure RclTimer where
  clockType : ClockType
  canceled : Bool
  valid : Bool
  unique : Bool
  nextCallTime : Int
  period : Int
deriving DecidableEq

/-- Modelled from the spec: `rcl_timer_call` on a non-cancelled timer re-arms it,
advancing its schedule by one period (the recomputed next-call-time then comes
back through `rcl_timer_get_next_call_time`). -/
def rclTimerCallAdvance (t : RclTimer) : RclTimer :=
  { t with nextCallTime := t.nextCallTime + t.period }

/-- External registry of rcl timers, indexed by handle identity (the address a
`shared_ptr<const rcl_timer_t>` points to). -/
abbrev Heap := Nat → RclTimer

def updateHeap (h : Heap) (r : Nat) (t : RclTimer) : Heap :=
  fun x => if x = r then t else h x

/-- `TimerQueue::TimerData`: identity of the heap allocation (`id`, the pointer
compared by `e.second == data_ptr`) plus the underlying handle it references
(`rcl_ref`).  The ready-callback is identified by the entry itself; firing it is
recorded in the trace returned by `call_ready_timer_callbacks`. -/
structure TimerData where
  id : Nat
  rcl_ref : Nat
deriving DecidableEq

/-- State of one `TimerQueue`: the live-set `all_timers`
(`std::vector<std::unique_ptr<TimerData>>`), the ordered index `running_timers`
(`std::multimap<std::chrono::nanoseconds, const TimerData *>`, kept as a
key-sorted list with duplicates), the set of timer handles whose on-reset hook
this queue installed, a fresh-pointer counter, a counter of condition-variable
signals (`thread_conditional.notify_*` calls), and the worker-thread flags. -/
structure QState where
  timer_type : ClockType
  all_timers : List TimerData
  running_timers : List (Int × TimerData)
  hooks : List Nat
  next_id : Nat
  wake_signals : Nat
  running : Bool
  thread_terminated : Bool
  global_ok : Bool
deriving DecidableEq

/-- `std::multimap` insertion: a new `(key, value)` pair goes after all entries
with key ≤ its own (upper bound), keeping the list key-sorted. -/
def mmInsert (k : Int) (d : TimerData) : List (Int × TimerData) → List (Int × TimerData)
  | [] => [(k, d)]
  | e :: rest => if k < e.1 then (k, d) :: e :: rest else e :: mmInsert k d rest

/-- `TimerQueue::remove_timer`: uninstall the reset hook, locate the timer in
`all_timers` by handle identity; if found, erase the first `running_timers`
entry whose value is that `TimerData` pointer and erase the `TimerData` itself;
always notify the worker.  The source erases the `running_timers` iterator
returned by `find_if` unconditionally; when no entry matches, that iterator is
`end()` and the erase is invalid (undefined behaviour) — embedded as `none`. -/
def TimerQueue.remove_timer (s : QState) (timer : Nat) : Option QState :=
  let s0 : QState := { s with hooks := s.hooks.filter (fun r => r != timer) }
  match s0.all_timers.find? (fun d => d.rcl_ref == timer) with
  | none => some { s0 with wake_signals := s0.wake_signals + 1 }
  | some d =>
    match s0.running_timers.find? (fun e => e.2.id == d.id) with
    | none => none
    | some _ =>
      some { s0 with
        all_timers := s0.all_timers.eraseP (fun e => e.id == d.id),
        running_timers := s0.running_timers.eraseP (fun e => e.2.id == d.id),
        wake_signals := s0.wake_signals + 1 }

/-- `TimerQueue::add_timer_to_running_map`: if the handle is no longer
externally referenced, drop the `TimerData` from the live-set and stop; else
`rcl_timer_call` — on Cancelled do nothing further; else insert into the
ordered index at the recomputed next-call-time, provided the handle still
answers `rcl_timer_get_next_call_time` with RCL_RET_OK. -/
def TimerQueue.add_timer_to_running_map (h : Heap) (s : QState) (d : TimerData) :
    Heap × QState :=
  let t := h d.rcl_ref
  if t.unique then
    (h, { s with all_timers := s.all_timers.eraseP (fun e => e.id == d.id) })
  else if t.canceled then
    (h, s)
  else
    let t2 := rclTimerCallAdvance t
    let h2 := updateHeap h d.rcl_ref t2
    if t2.valid then
      (h2, { s with running_timers := mmInsert t2.nextCallTime d s.running_timers })
    else
      (h2, s)

/-- `TimerQueue::add_timer`: reject a timer whose clock domain differs from this
queue's (defensive routing check), otherwise create the `TimerData`, install the
on-reset hook, arm and index the timer, append it to the live-set, and wake the
worker. -/
def TimerQueue.add_timer (h : Heap) (s : QState) (timer : Nat) : Heap × QState :=
  if (h timer).clockType ≠ s.timer_type then
    (h, s)
  else
    let d : TimerData := { id := s.next_id, rcl_ref := timer }
    let s1 : QState := { s with
      hooks := timer :: s.hooks.filter (fun r => r != timer),
      next_id := s.next_id + 1 }
    let r := TimerQueue.add_timer_to_running_map h s1 d
    (r.1, { r.2 with
      all_timers := r.2.all_timers ++ [d],
      wake_signals := r.2.wake_signals + 1 })

/-- The on-reset lambda installed by `add_timer` (timer_manager.hpp lines
100–103): it calls `add_timer_to_running_map(data_ptr)` directly — the source
takes no lock there and performs no `thread_conditional` notification. -/
def TimerQueue.on_reset_hook (h : Heap) (s : QState) (d : TimerData) : Heap × QState :=
  TimerQueue.add_timer_to_running_map h s d

/-- The "absurd high timeout" returned for an empty index:
`std::chrono::hours(10000)` expressed in nanoseconds. -/
def sentinelNextReadyTime : Int := 36000000000000000

/-- `TimerQueue::get_next_timer_ready_time`: earliest key of the ordered index,
or the 10000-hour sentinel when the index is empty. -/
def TimerQueue.get_next_timer_ready_time (s : QState) : Int :=
  match s.running_timers with
  | [] => sentinelNextReadyTime
  | e :: _ => e.1

/-- The `readd_timer_to_running_map` lambda inside
`call_ready_timer_callbacks`: drop the extracted node's `TimerData` when the
handle is no longer externally referenced; otherwise reinsert the node keyed by
the recomputed next-call-time, or drop it when the handle no longer answers
`rcl_timer_get_next_call_time`. -/
def TimerQueue.readd_timer_to_running_map (h : Heap) (s : QState) (d : TimerData) :
    QState :=
  let t := h d.rcl_ref
  if t.unique then
    { s with all_timers := s.all_timers.eraseP (fun e => e.id == d.id) }
  else if t.valid then
    { s with running_timers := mmInsert t.nextCallTime d s.running_timers }
  else
    s

/-- `TimerQueue::call_ready_timer_callbacks` (one drain pass at time `now`):
while the index is non-empty, query the earliest entry's
`rcl_timer_get_time_until_next_call` — Cancelled drops the entry; a positive
remainder stops the pass; otherwise `rcl_timer_call` re-arms the timer (its
Cancelled return would also drop the entry, but a handle that just reported a
remainder is not cancelled), the ready-callback fires (recorded in the returned
trace as the entry's key and `TimerData`), and the extracted node is re-added.
The C++ `while` loop terminates only because re-armed timers leave the due
region; the embedding makes that explicit with a fuel parameter. -/
def TimerQueue.call_ready_timer_callbacks (now : Int) :
    Nat → Heap → QState → Heap × QState × List (Int × TimerData)
  | 0, h, s => (h, s, [])
  | Nat.succ fuel, h, s =>
    match s.running_timers with
    | [] => (h, s, [])
    | (k, d) :: rest =>
      let t := h d.rcl_ref
      if t.canceled then
        TimerQueue.call_ready_timer_callbacks now fuel h { s with running_timers := rest }
      else if t.nextCallTime - now ≤ 0 then
        let t2 := rclTimerCallAdvance t
        let h2 := updateHeap h d.rcl_ref t2
        let s2 := TimerQueue.readd_timer_to_running_map h2
          { s with running_timers := rest } d
        let r := TimerQueue.call_ready_timer_callbacks now fuel h2 s2
        (r.1, r.2.1, (k, d) :: r.2.2)
      else
        (h, s, [])

/-- Outcome of one `used_clock_for_timers.sleep_until(...)` call: either the
wait returns (deadline reached or condition signalled), or it raises the
invalid-clock `std::runtime_error` (clock source torn down mid-wait). -/
inductive SleepOutcome
  | slept
  | clockError
deriving DecidableEq

/-- One iteration's external input to the worker loop: the clock value the
drain pass observes, a fuel bound for that pass, and how the sleep ends. -/
structure WorkerEvent where
  now : Int
  fuel : Nat
  outcome : SleepOutcome
deriving DecidableEq

/-- `TimerQueue::timer_thread`: while `running && rclcpp::ok()`, drain ready
timers under the lock, compute the next wakeup, then sleep; a
`std::runtime_error` from `sleep_until` is caught and answered by setting
`running = false`, so the loop exits normally on its next check and the thread
marks `thread_terminated`. -/
def TimerQueue.timer_thread : List WorkerEvent → Heap → QState → Heap × QState
  | [], h, s =>
    if s.running && s.global_ok then
      (h, s)
    else
      (h, { s with thread_terminated := true })
  | e :: rest, h, s =>
    if s.running && s.global_ok then
      let r := TimerQueue.call_ready_timer_callbacks e.now e.fuel h s
      match e.outcome with
      | SleepOutcome.slept => TimerQueue.timer_thread rest r.1 r.2.1
      | SleepOutcome.clockError =>
        TimerQueue.timer_thread rest r.1 { r.2.1 with running := false }
    else
      (h, { s with thread_terminated := true })

/-- `TimerQueue::stop`: clear the running flag and signal the worker. -/
def TimerQueue.stop (s : QState) : QState :=
  { s with running := false, wake_signals := s.wake_signals + 1 }

/-- A freshly constructed `TimerQueue` serving clock domain `c`. -/
def initQueue (c : ClockType) : QState where
  timer_type := c
  all_timers := []
  running_timers := []
  hooks := []
  next_id := 0
  wake_signals := 0
  running := true
  thread_terminated := false
  global_ok := true

/-- `TimerManager`: the fixed `std::array<TimerQueue, 3>` constructed with
RCL_ROS_TIME, RCL_SYSTEM_TIME, RCL_STEADY_TIME. -/
structure ManagerState where
  q_ros : QState
  q_system : QState
  q_steady : QState
deriving DecidableEq

def TimerManager.init : ManagerState where
  q_ros := initQueue ClockType.ros
  q_system := initQueue ClockType.system
  q_steady := initQueue ClockType.steady

/-- `TimerManager::add_timer`: broadcast to every queue in array order, the
shared rcl-timer registry threading through. -/
def TimerManager.add_timer (h : Heap) (m : ManagerState) (timer : Nat) :
    Heap × ManagerState :=
  let r1 := TimerQueue.add_timer h m.q_ros timer
  let r2 := TimerQueue.add_timer r1.1 m.q_system timer
  let r3 := TimerQueue.add_timer r2.1 m.q_steady timer
  (r3.1, { q_ros := r1.2, q_system := r2.2, q_steady := r3.2 })

/-- `TimerManager::remove_timer`: broadcast to every queue in array order;
`none` when some queue's removal hits the invalid erase. -/
def TimerManager.remove_timer (m : ManagerState) (timer : Nat) : Option ManagerState :=
  match TimerQueue.remove_timer m.q_ros timer,
      TimerQueue.remove_timer m.q_system timer,
      TimerQueue.remove_timer m.q_steady timer with
  | some a, some b, some c => some { q_ros := a, q_system := b, q_steady := c }
  | _, _, _ => none

/-- `TimerManager::stop`: stop every queue. -/
def TimerManager.stop (m : ManagerState) : ManagerState where
  q_ros := TimerQueue.stop m.q_ros
  q_system := TimerQueue.stop m.q_system
  q_steady := TimerQueue.stop m.q_steady

/-- `TestWaitable` (test_executors.cpp): the `is_ready`-before-`take_data`
flag, the unprocessed-trigger counter (`std::atomic<uint>`, 32-bit wraparound)
and the execute counter. -/
structure TestWaitable where
  is_ready_called_before_take_data : Bool
  num_unprocessed_triggers : Nat
  count_ : Nat
deriving DecidableEq

/-- Modulus of the 32-bit unsigned trigger counter. -/
def uintMod : Nat := 2 ^ 32

def waitInit : TestWaitable where
  is_ready_called_before_take_data := false
  num_unprocessed_triggers := 0
  count_ := 0

/-- `TestWaitable::trigger`: one more unprocessed readiness occurrence. -/
def TestWaitable.trigger (w : TestWaitable) : TestWaitable :=
  { w with num_unprocessed_triggers := (w.num_unprocessed_triggers + 1) % uintMod }

/-- `TestWaitable::is_ready`: records that it was called (whatever it returns),
then reports whether this waitable's guard condition is in the completed wait
set — that membership is the `gcInWaitSet` argument. -/
def TestWaitable.is_ready (w : TestWaitable) (gcInWaitSet : Bool) :
    TestWaitable × Bool :=
  ({ w with is_ready_called_before_take_data := true }, gcInWaitSet)

/-- `TestWaitable::take_data`: throws (UsageFault, embedded as `none`) unless
`is_ready` ran since the last take; otherwise clears the flag and decrements
the unprocessed-trigger counter (32-bit wraparound). -/
def TestWaitable.take_data (w : TestWaitable) : Option TestWaitable :=
  if w.is_ready_called_before_take_data then
    some { w with
      is_ready_called_before_take_data := false,
      num_unprocessed_triggers := (w.num_unprocessed_triggers + uintMod - 1) % uintMod }
  else
    none

/-- Invariant of the ordered index: keys appear in nondecreasing order
(`std::multimap` iteration order). -/
abbrev sortedKeys (s : QState) : Prop :=
  List.Pairwise (fun a b : Int × TimerData => a.1 ≤ b.1) s.running_timers

/-- Invariant (spec §3): every ordered-index entry is keyed by its timer's
current next-call-time. -/
abbrev keysAccurate (h : Heap) (s : QState) : Prop :=
  ∀ e ∈ s.running_timers, (h e.2.rcl_ref).nextCallTime = e.1

/-- Every indexed timer has a nonnegative period (rcl rejects negative
periods at timer initialization). -/
abbrev periodsNonneg (h : Heap) (s : QState) : Prop :=
  ∀ e ∈ s.running_timers, 0 ≤ (h e.2.rcl_ref).period

/-- Each underlying handle appears at most once in the ordered index. -/
abbrev refsNodup (s : QState) : Prop :=
  (s.running_timers.map (fun e => e.2.rcl_ref)).Nodup

/-- Every indexed timer belongs to this queue's clock domain. -/
abbrev domOk (h : Heap) (s : QState) : Prop :=
  ∀ e ∈ s.running_timers, (h e.2.rcl_ref).clockType = s.timer_type

/-- Number of the manager's queues that installed an on-reset hook for
`timer`. -/
def hookCountM (m : ManagerState) (timer : Nat) : Nat :=
  (if timer ∈ m.q_ros.hooks then 1 else 0) +
  (if timer ∈ m.q_system.hooks then 1 else 0) +
  (if timer ∈ m.q_steady.hooks then 1 else 0)

/-- Number of the manager's queues whose live-set registers `timer`. -/
def regCountM (m : ManagerState) (timer : Nat) : Nat :=
  (if m.q_ros.all_timers.any (fun d => d.rcl_ref == timer) then 1 else 0) +
  (if m.q_system.all_timers.any (fun d => d.rcl_ref == timer) then 1 else 0) +
  (if m.q_steady.all_timers.any (fun d => d.rcl_ref == timer) then 1 else 0)

/-- Concrete timer used by the C1 witness: live, valid, shared, due at 5 with
period 10. -/
def timerW : RclTimer where
  clockType := ClockType.ros
  canceled := false
  valid := true
  unique := false
  nextCallTime := 5
  period := 10

def heapW : Heap := fun _ => timerW

def stateW : QState :=
  { initQueue ClockType.ros with
      running_timers := [(5, { id := 0, rcl_ref := 0 })],
      all_timers := [{ id := 0, rcl_ref := 0 }],
      next_id := 1 }

/-- Concrete timer used by the C2 theorem: live, valid, shared, next call 7,
period 1. -/
def timerC2 : RclTimer where
  clockType := ClockType.ros
  canceled := false
  valid := true
  unique := false
  nextCallTime := 7
  period := 1

def heapC2 : Heap := fun _ => timerC2

def stateC2 : QState :=
  { initQueue ClockType.ros with
      all_timers := [{ id := 0, rcl_ref := 0 }],
      hooks := [0],
      next_id := 1 }

/-- Concrete state for the C3 theorem: live-set holds the timer but the ordered
index has no entry for it (its handle was cancelled and drain dropped the
entry). -/
def stateC3 : QState :=
  { initQueue ClockType.ros with
      all_timers := [{ id := 0, rcl_ref := 3 }],
      next_id := 1 }

/-- Concrete cancelled timer used by the C5 theorem. -/
def timerC5 : RclTimer where
  clockType := ClockType.ros
  canceled := true
  valid := true
  unique := false
  nextCallTime := 0
  period := 1

def heapC5 : Heap := fun _ => timerC5

/-- Concrete mismatched timer for the C4 witness: a steady-clock timer offered
to the ROS-time queue. -/
def timerC4 : RclTimer where
  clockType := ClockType.steady
  canceled := false
  valid := true
  unique := false
  nextCallTime := 11
  period := 2

def heapC4 : Heap := fun _ => timerC4

/-- Armed `TestWaitable` with one pending trigger, for the C6 witness. -/
def waitArmed : TestWaitable where
  is_ready_called_before_take_data := true
  num_unprocessed_triggers := 1
  count_ := 0

/-- A freshly constructed queue after one broadcast `remove_timer` of an
unregistered timer: only the wake-signal counter moved. -/
def qWake (c : ClockType) : QState :=
  { initQueue c with wake_signals := 1 }

section Helpers

lemma updateHeap_same (h : Heap) (r : Nat) (t : RclTimer) : updateHeap h r t r = t := by
  simp [updateHeap]

lemma updateHeap_other (h : Heap) (r x : Nat) (t : RclTimer) (hx : x ≠ r) :
    updateHeap h r t x = h x := by
  simp [updateHeap, hx]

lemma mem_mmInsert (k : Int) (d : TimerData) (l : List (Int × TimerData))
    (p : Int × TimerData) : p ∈ mmInsert k d l ↔ p = (k, d) ∨ p ∈ l := by
  induction l with
  | nil => simp [mmInsert]
  | cons e rest ih =>
    by_cases hk : k < e.1
    · simp [mmInsert, hk]
    · simp only [mmInsert, if_neg hk, List.mem_cons, ih]
      tauto

lemma mmInsert_perm (k : Int) (d : TimerData) (l : List (Int × TimerData)) :
    List.Perm (mmInsert k d l) ((k, d) :: l) := by
  induction l with
  | nil => simp [mmInsert]
  | cons e rest ih =>
    by_cases hk : k < e.1
    · simp [mmInsert, hk]
    · simp only [mmInsert, if_neg hk]
      exact (ih.cons e).trans (List.Perm.swap (k, d) e rest)

lemma pairwise_mmInsert (k : Int) (d : TimerData) (l : List (Int × TimerData))
    (hl : List.Pairwise (fun a b : Int × TimerData => a.1 ≤ b.1) l) :
    List.Pairwise (fun a b : Int × TimerData => a.1 ≤ b.1) (mmInsert k d l) := by
  induction l with
  | nil => simp [mmInsert]
  | cons e rest ih =>
    rcases List.pairwise_cons.mp hl with ⟨he, hrest⟩
    by_cases hk : k < e.1
    · simp only [mmInsert, if_pos hk]
      refine List.pairwise_cons.mpr ⟨?_, hl⟩
      intro b hb
      rcases List.mem_cons.mp hb with rfl | hb2
      · exact le_of_lt hk
      · exact le_trans (le_of_lt hk) (he b hb2)
    · simp only [mmInsert, if_neg hk]
      refine List.pairwise_cons.mpr ⟨?_, ih hrest⟩
      intro b hb
      rcases (mem_mmInsert k d rest b).mp hb with rfl | hb2
      · exact le_of_not_lt hk
      · exact he b hb2

lemma add_timer_mismatch (h : Heap) (s : QState) (timer : Nat)
    (hne : (h timer).clockType ≠ s.timer_type) :
    TimerQueue.add_timer h s timer = (h, s) := by
  simp [TimerQueue.add_timer, hne]

lemma add_to_running_map_clock (h : Heap) (s : QState) (d : TimerData) (r : Nat) :
    ((TimerQueue.add_timer_to_running_map h s d).1 r).clockType = (h r).clockType := by
  unfold TimerQueue.add_timer_to_running_map
  by_cases hu : (h d.rcl_ref).unique
  · simp [hu]
  · by_cases hc : (h d.rcl_ref).canceled
    · simp [hu, hc]
    · by_cases hv : (h d.rcl_ref).valid <;> by_cases hr : r = d.rcl_ref <;>
        simp [hu, hc, hv, hr, rclTimerCallAdvance, updateHeap]

lemma add_timer_clock (h : Heap) (s : QState) (timer r : Nat) :
    ((TimerQueue.add_timer h s timer).1 r).clockType = (h r).clockType := by
  unfold TimerQueue.add_timer
  by_cases hne : (h timer).clockType ≠ s.timer_type
  · simp [hne]
  · simp only [hne, if_false]
    exact add_to_running_map_clock h _ _ r

lemma readd_running_sub (h : Heap) (s : QState) (d : TimerData) :
    ∀ e ∈ (TimerQueue.readd_timer_to_running_map h s d).running_timers,
      e ∈ s.running_timers ∨ e.2 = d := by
  unfold TimerQueue.readd_timer_to_running_map
  intro e he
  by_cases hu : (h d.rcl_ref).unique
  · simp only [if_pos hu] at he
    exact Or.inl he
  · by_cases hv : (h d.rcl_ref).valid
    · simp only [if_neg hu, if_pos hv] at he
      rcases (mem_mmInsert _ d s.running_timers e).mp he with rfl | he2
      · exact Or.inr rfl
      · exact Or.inl he2
    · simp only [if_neg hu, if_neg hv] at he
      exact Or.inl he

lemma drain_fired_from_index (now : Int) (fuel : Nat) :
    ∀ (h : Heap) (s : QState),
      ∀ p ∈ (TimerQueue.call_ready_timer_callbacks now fuel h s).2.2,
        ∃ e ∈ s.running_timers, e.2 = p.2 := by
  induction fuel with
  | zero =>
    intro h s p hp
    simp [TimerQueue.call_ready_timer_callbacks] at hp
  | succ f ih =>
    intro h s p hp
    rcases hrun : s.running_timers with _ | ⟨e0, rest⟩
    · simp [TimerQueue.call_ready_timer_callbacks, hrun] at hp
    · obtain ⟨k, d⟩ := e0
      by_cases hc : (h d.rcl_ref).canceled
      · simp only [TimerQueue.call_ready_timer_callbacks, hrun, hc, if_pos] at hp
        rcases ih h { s with running_timers := rest } p hp with ⟨e, he, hed⟩
        exact ⟨e, List.mem_cons_of_mem _ he, hed⟩
      · by_cases hd : (h d.rcl_ref).nextCallTime - now ≤ 0
        · simp only [TimerQueue.call_ready_timer_callbacks, hrun, hc, hd, if_pos,
            if_neg, if_false, Bool.false_eq_true, List.mem_cons] at hp
          rcases hp with rfl | hp2
          · exact ⟨(k, d), List.mem_cons_self _ _, rfl⟩
          · rcases ih _ _ p hp2 with ⟨e, he, hed⟩
            rcases readd_running_sub _ _ _ e he with he2 | he2
            · exact ⟨e, List.mem_cons_of_mem _ he2, hed⟩
            · refine ⟨(k, d), List.mem_cons_self _ _, ?_⟩
              rw [← hed, he2]
        · simp [TimerQueue.call_ready_timer_callbacks, hrun, hc, hd] at hp

end Helpers

/-- C2: the claim states that all live-set/ordered-index mutation — including
that performed by a timer's on-reset hook — is serialized by the queue's mutex,
and that every mutation able to change the next wake deadline signals the wake
condition variable.  The code violates it: the on-reset lambda (lines 100–103)
calls `add_timer_to_running_map` directly, holding no lock and never notifying
`thread_conditional`, although it inserts into `running_timers` and thereby
changes the next wake deadline.  This theorem evaluates the embedded hook on a
live, valid, externally referenced timer: the ordered index and the next-wake
value change while the signal counter stays untouched. -/
theorem c2_reset_hook_no_wake_signal :
    (TimerQueue.on_reset_hook heapC2 stateC2 { id := 0, rcl_ref := 0 }).2.running_timers ≠
      stateC2.running_timers ∧
    TimerQueue.get_next_timer_ready_time
        (TimerQueue.on_reset_hook heapC2 stateC2 { id := 0, rcl_ref := 0 }).2 ≠
      TimerQueue.get_next_timer_ready_time stateC2 ∧
    (TimerQueue.on_reset_hook heapC2 stateC2 { id := 0, rcl_ref := 0 }).2.wake_signals =
      stateC2.wake_signals := by
  decide

/-- C3: the claim states `remove_timer` is safe (no invalid erase) in every
state, including when the timer has no current ordered-index entry (for example
because it was cancelled).  The code violates it: when the timer is found in
`all_timers` but the `find_if` over `running_timers` yields `end()`, the source
still executes `running_timers.erase(it2)` — an invalid erase (undefined
behaviour), embedded as `none`.  The failing state holds the timer in the
live-set with an empty ordered index. -/
theorem c3_remove_cancelled_invalid_erase :
    TimerQueue.remove_timer stateC3 3 = none := by
  decide

/-- C5: the claim states that add_timer immediately followed by remove_timer
restores `get_next_timer_ready_time` to its prior value for every starting
state and unregistered timer.  The code violates it for a timer whose handle is
cancelled at registration: `add_timer` stores the `TimerData` in `all_timers`
but inserts nothing into `running_timers` (`rcl_timer_call` returns
RCL_RET_TIMER_CANCELED), so the subsequent `remove_timer` erases
`running_timers.end()` — undefined behaviour instead of a restored next-wake
value. -/
theorem c5_add_remove_invalid_erase :
    TimerQueue.remove_timer (TimerQueue.add_timer heapC5 (initQueue ClockType.ros) 4).2 4 =
      none := by
  decide

/-- C4: a timer whose clock domain differs from the queue's is rejected by
`add_timer` as a complete no-op (shared registry, live-set, ordered index,
hooks all unchanged, so no reset hook is installed), and a drain pass of a
queue whose ordered index respects the domain invariant only fires ready
callbacks of timers in the queue's own domain — hence a timer registered to
domain A never has its ready-callback invoked by a queue serving domain B, for
all domain pairs. -/
theorem c4_domain_guard (h : Heap) (s : QState) (timer : Nat) (now : Int) (fuel : Nat)
    (hne : (h timer).clockType ≠ s.timer_type) (hdom : domOk h s) :
    TimerQueue.add_timer h s timer = (h, s) ∧
    ∀ p ∈ (TimerQueue.call_ready_timer_callbacks now fuel h s).2.2,
      (h p.2.rcl_ref).clockType = s.timer_type := by
  refine ⟨add_timer_mismatch h s timer hne, ?_⟩
  intro p hp
  rcases drain_fired_from_index now fuel h s p hp with ⟨e, he, hed⟩
  rw [← hed]
  exact hdom e he

/-- C4 witness: a steady-clock timer offered to the ROS-time queue. -/
theorem c4_domain_guard_witness :
    (heapC4 7).clockType ≠ (initQueue ClockType.ros).timer_type ∧
    domOk heapC4 (initQueue ClockType.ros) ∧
    TimerQueue.add_timer heapC4 (initQueue ClockType.ros) 7 =
      (heapC4, initQueue ClockType.ros) :=
  ⟨by decide, by decide,
    (c4_domain_guard heapC4 (initQueue ClockType.ros) 7 0 1 (by decide) (by decide)).1⟩

/-- C6 counterexample: after one `trigger`, an `is_ready` call that returns
false (the guard condition is not in the completed wait set) still arms the
precondition flag, so the following `take_data` succeeds and decrements the
counter — no UsageFault is raised although no `is_ready` call returned true
for the occurrence.  This refutes the claim as stated. -/
theorem c6_counterexample :
    (TestWaitable.is_ready (TestWaitable.trigger waitInit) false).2 = false ∧
    TestWaitable.take_data (TestWaitable.is_ready (TestWaitable.trigger waitInit) false).1 =
      some { is_ready_called_before_take_data := false, num_unprocessed_triggers := 0,
             count_ := 0 } := by
  decide

/-- C6 (amended): `take_data` raises UsageFault exactly when no `is_ready`
call — whatever it returned — has run since the last take; any `is_ready`
call arms the precondition flag; and with the flag armed one `take_data`
clears it and decrements the 32-bit unprocessed-trigger counter by one (an
exact decrement whenever an in-range trigger count is pending). -/
theorem c6_take_data_amended (w v : TestWaitable) (b : Bool)
    (hflag : w.is_ready_called_before_take_data = true)
    (hneg : v.is_ready_called_before_take_data = false)
    (hpos : 1 ≤ w.num_unprocessed_triggers)
    (hlt : w.num_unprocessed_triggers < uintMod) :
    (TestWaitable.is_ready v b).1.is_ready_called_before_take_data = true ∧
    TestWaitable.take_data v = none ∧
    TestWaitable.take_data w =
      some { is_ready_called_before_take_data := false,
             num_unprocessed_triggers := w.num_unprocessed_triggers - 1,
             count_ := w.count_ } := by
  refine ⟨rfl, by simp [TestWaitable.take_data, hneg], ?_⟩
  simp only [TestWaitable.take_data, hflag, if_pos]
  have hmod : (w.num_unprocessed_triggers + uintMod - 1) % uintMod =
      w.num_unprocessed_triggers - 1 := by
    unfold uintMod at *
    omega
  rw [hmod]

/-- C6 witness for the amended statement. -/
theorem c6_take_data_amended_witness :
    waitArmed.is_ready_called_before_take_data = true ∧
    waitInit.is_ready_called_before_take_data = false ∧
    1 ≤ waitArmed.num_unprocessed_triggers ∧
    waitArmed.num_unprocessed_triggers < uintMod ∧
    TestWaitable.take_data waitInit = none ∧
    TestWaitable.take_data waitArmed =
      some { is_ready_called_before_take_data := false, num_unprocessed_triggers := 0,
             count_ := 0 } :=
  ⟨rfl, rfl, by decide, by decide,
    (c6_take_data_amended waitArmed waitInit true rfl rfl (by decide) (by decide)).2.1,
    (c6_take_data_amended waitArmed waitInit true rfl rfl (by decide) (by decide)).2.2⟩

/-- C7: `get_next_timer_ready_time` returns the smallest key of the ordered
index whenever the index is non-empty (it is a key, and it bounds every key
from below), and on an empty index returns the fixed 10000-hour sentinel,
which is strictly smaller than the maximum representable int64 nanosecond
duration 2^63 - 1, the headroom the wait primitive needs to add it to the
current time without overflow. -/
theorem c7_next_ready_time (s : QState) (hs : sortedKeys s) :
    (s.running_timers = [] →
      TimerQueue.get_next_timer_ready_time s = sentinelNextReadyTime) ∧
    sentinelNextReadyTime = 10000 * 3600 * 1000000000 ∧
    sentinelNextReadyTime < 2 ^ 63 - 1 ∧
    (∀ e ∈ s.running_timers, TimerQueue.get_next_timer_ready_time s ≤ e.1) ∧
    (s.running_timers ≠ [] →
      ∃ e, e ∈ s.running_timers ∧ TimerQueue.get_next_timer_ready_time s = e.1) := by
  refine ⟨?_, by decide, by decide, ?_, ?_⟩
  · intro h0
    simp [TimerQueue.get_next_timer_ready_time, h0]
  · intro e he
    rcases hrun : s.running_timers with _ | ⟨x, rest⟩
    · rw [hrun] at he
      cases he
    · rw [hrun] at he
      have hget : TimerQueue.get_next_timer_ready_time s = x.1 := by
        simp [TimerQueue.get_next_timer_ready_time, hrun]
      rw [hget]
      rcases List.mem_cons.mp he with rfl | he2
      · exact le_refl _
      · have hp := hs
        unfold sortedKeys at hp
        rw [hrun] at hp
        exact (List.pairwise_cons.mp hp).1 e he2
  · intro hne
    rcases hrun : s.running_timers with _ | ⟨x, rest⟩
    · exact absurd hrun hne
    · refine ⟨x, List.mem_cons_self _ _, ?_⟩
      simp [TimerQueue.get_next_timer_ready_time, hrun]

/-- C7 witness. -/
theorem c7_next_ready_time_witness :
    sortedKeys stateW ∧ sentinelNextReadyTime < 2 ^ 63 - 1 :=
  ⟨by decide, (c7_next_ready_time stateW (by decide)).2.2.1⟩

/-- C8: when `sleep_until` raises the invalid-clock runtime error, the worker
treats it as a shutdown signal: the catch block clears `running`, the loop's
next guard check fails, the thread marks itself terminated, and any further
events are ignored — the iteration's drain pass still happened, and no error
escapes (`timer_thread` returns a normal final state for every event list). -/
theorem c8_clock_error_shutdown (evs : List WorkerEvent) (e : WorkerEvent) (h : Heap)
    (s : QState) (hr : s.running = true) (hok : s.global_ok = true)
    (he : e.outcome = SleepOutcome.clockError) :
    TimerQueue.timer_thread (e :: evs) h s =
      ((TimerQueue.call_ready_timer_callbacks e.now e.fuel h s).1,
       { (TimerQueue.call_ready_timer_callbacks e.now e.fuel h s).2.1 with
           running := false, thread_terminated := true }) := by
  cases evs <;> simp [TimerQueue.timer_thread, hr, hok, he]

/-- C8 witness. -/
theorem c8_clock_error_shutdown_witness :
    stateW.running = true ∧ stateW.global_ok = true ∧
    TimerQueue.timer_thread
        [{ now := 0, fuel := 2, outcome := SleepOutcome.clockError }] heapW stateW =
      ((TimerQueue.call_ready_timer_callbacks 0 2 heapW stateW).1,
       { (TimerQueue.call_ready_timer_callbacks 0 2 heapW stateW).2.1 with
           running := false, thread_terminated := true }) :=
  ⟨rfl, rfl,
    c8_clock_error_shutdown [] { now := 0, fuel := 2, outcome := SleepOutcome.clockError }
      heapW stateW rfl rfl rfl⟩

lemma hookCountM_zero (m : ManagerState) (t : Nat) (hz : hookCountM m t = 0) :
    t ∉ m.q_ros.hooks ∧ t ∉ m.q_system.hooks ∧ t ∉ m.q_steady.hooks := by
  by_cases h1 : t ∈ m.q_ros.hooks <;> by_cases h2 : t ∈ m.q_system.hooks <;>
    by_cases h3 : t ∈ m.q_steady.hooks <;>
    simp [hookCountM, h1, h2, h3] at hz ⊢

lemma regCountM_zero (m : ManagerState) (t : Nat) (hz : regCountM m t = 0) :
    m.q_ros.all_timers.any (fun d => d.rcl_ref == t) = false ∧
    m.q_system.all_timers.any (fun d => d.rcl_ref == t) = false ∧
    m.q_steady.all_timers.any (fun d => d.rcl_ref == t) = false := by
  by_cases h1 : m.q_ros.all_timers.any (fun d => d.rcl_ref == t) <;>
    by_cases h2 : m.q_system.all_timers.any (fun d => d.rcl_ref == t) <;>
    by_cases h3 : m.q_steady.all_timers.any (fun d => d.rcl_ref == t) <;>
    simp [regCountM, h1, h2, h3] at hz ⊢

/-- C9: the manager owns the fixed three-queue array covering the ROS
(logical/simulated), system (wall-clock) and steady (monotonic) domains;
`add_timer` forwards the call to every queue in array order (threading the
shared timer registry through), `remove_timer` forwards to every queue, and
`stop` stops every queue. -/
theorem c9_manager_broadcast (h : Heap) (m : ManagerState) (t : Nat)
    (a b c : QState)
    (hra : TimerQueue.remove_timer m.q_ros t = some a)
    (hrb : TimerQueue.remove_timer m.q_system t = some b)
    (hrc : TimerQueue.remove_timer m.q_steady t = some c) :
    (TimerManager.init.q_ros.timer_type = ClockType.ros ∧
     TimerManager.init.q_system.timer_type = ClockType.system ∧
     TimerManager.init.q_steady.timer_type = ClockType.steady) ∧
    ((TimerManager.add_timer h m t).2.q_ros = (TimerQueue.add_timer h m.q_ros t).2 ∧
     (TimerManager.add_timer h m t).2.q_system =
       (TimerQueue.add_timer (TimerQueue.add_timer h m.q_ros t).1 m.q_system t).2 ∧
     (TimerManager.add_timer h m t).2.q_steady =
       (TimerQueue.add_timer
         (TimerQueue.add_timer (TimerQueue.add_timer h m.q_ros t).1 m.q_system t).1
         m.q_steady t).2) ∧
    TimerManager.remove_timer m t = some { q_ros := a, q_system := b, q_steady := c } ∧
    ((TimerManager.stop m).q_ros.running = false ∧
     (TimerManager.stop m).q_system.running = false ∧
     (TimerManager.stop m).q_steady.running = false) := by
  refine ⟨⟨rfl, rfl, rfl⟩, ⟨rfl, rfl, rfl⟩, ?_, ⟨rfl, rfl, rfl⟩⟩
  simp [TimerManager.remove_timer, hra, hrb, hrc]

/-- C9 witness: broadcasting over the freshly constructed manager. -/
theorem c9_manager_broadcast_witness :
    TimerQueue.remove_timer TimerManager.init.q_ros 0 = some (qWake ClockType.ros) ∧
    TimerQueue.remove_timer TimerManager.init.q_system 0 = some (qWake ClockType.system) ∧
    TimerQueue.remove_timer TimerManager.init.q_steady 0 = some (qWake ClockType.steady) ∧
    TimerManager.remove_timer TimerManager.init 0 =
      some { q_ros := qWake ClockType.ros, q_system := qWake ClockType.system,
             q_steady := qWake ClockType.steady } :=
  ⟨by decide, by decide, by decide,
    (c9_manager_broadcast heapC4 TimerManager.init 0 (qWake ClockType.ros)
      (qWake ClockType.system) (qWake ClockType.steady)
      (by decide) (by decide) (by decide)).2.2.1⟩

/-- C10: the three queues constructed by the manager carry pairwise distinct
clock-domain tags, so during one `add_timer` broadcast over a manager whose
queues carry the three distinct tags, at most one queue accepts the timer: it
ends up registered, and its reset hook installed, in at most one queue. -/
theorem c10_single_registration (h : Heap) (m : ManagerState) (t : Nat)
    (htr : m.q_ros.timer_type = ClockType.ros)
    (hts : m.q_system.timer_type = ClockType.system)
    (htt : m.q_steady.timer_type = ClockType.steady)
    (hh : hookCountM m t = 0) (hg : regCountM m t = 0) :
    (TimerManager.init.q_ros.timer_type ≠ TimerManager.init.q_system.timer_type ∧
     TimerManager.init.q_ros.timer_type ≠ TimerManager.init.q_steady.timer_type ∧
     TimerManager.init.q_system.timer_type ≠ TimerManager.init.q_steady.timer_type) ∧
    hookCountM (TimerManager.add_timer h m t).2 t ≤ 1 ∧
    regCountM (TimerManager.add_timer h m t).2 t ≤ 1 := by
  obtain ⟨hh1, hh2, hh3⟩ := hookCountM_zero m t hh
  obtain ⟨hg1, hg2, hg3⟩ := regCountM_zero m t hg
  have hc1 : ∀ r : Nat, ((TimerQueue.add_timer h m.q_ros t).1 r).clockType =
      (h r).clockType := fun r => add_timer_clock h m.q_ros t r
  have hc2 : ∀ r : Nat,
      ((TimerQueue.add_timer (TimerQueue.add_timer h m.q_ros t).1 m.q_system t).1 r).clockType =
      (h r).clockType := by
    intro r
    rw [add_timer_clock _ m.q_system t r]
    exact hc1 r
  refine ⟨⟨by decide, by decide, by decide⟩, ?_⟩
  cases hct : (h t).clockType with
  | ros =>
    have e2 : TimerQueue.add_timer (TimerQueue.add_timer h m.q_ros t).1 m.q_system t =
        ((TimerQueue.add_timer h m.q_ros t).1, m.q_system) := by
      refine add_timer_mismatch _ _ _ ?_
      rw [hc1 t, hct, hts]
      decide
    have e3 : TimerQueue.add_timer
        (TimerQueue.add_timer (TimerQueue.add_timer h m.q_ros t).1 m.q_system t).1
        m.q_steady t =
        ((TimerQueue.add_timer (TimerQueue.add_timer h m.q_ros t).1 m.q_system t).1,
         m.q_steady) := by
      refine add_timer_mismatch _ _ _ ?_
      rw [hc2 t, hct, htt]
      decide
    have hq2 : (TimerManager.add_timer h m t).2.q_system = m.q_system := by
      show (TimerQueue.add_timer (TimerQueue.add_timer h m.q_ros t).1 m.q_system t).2 =
        m.q_system
      rw [e2]
    have hq3 : (TimerManager.add_timer h m t).2.q_steady = m.q_steady := by
      show (TimerQueue.add_timer
        (TimerQueue.add_timer (TimerQueue.add_timer h m.q_ros t).1 m.q_system t).1
        m.q_steady t).2 = m.q_steady
      rw [e3]
    constructor
    · unfold hookCountM
      rw [hq2, hq3]
      simp only [hh2, hh3, if_neg, if_false]
      split <;> simp
    · unfold regCountM
      rw [hq2, hq3]
      simp only [hg2, hg3, Bool.false_eq_true, if_false]
      split <;> simp
  | system =>
    have e1 : TimerQueue.add_timer h m.q_ros t = (h, m.q_ros) := by
      refine add_timer_mismatch _ _ _ ?_
      rw [hct, htr]
      decide
    have e3 : TimerQueue.add_timer
        (TimerQueue.add_timer (TimerQueue.add_timer h m.q_ros t).1 m.q_system t).1
        m.q_steady t =
        ((TimerQueue.add_timer (TimerQueue.add_timer h m.q_ros t).1 m.q_system t).1,
         m.q_steady) := by
      refine add_timer_mismatch _ _ _ ?_
      rw [hc2 t, hct, htt]
      decide
    have hq1 : (TimerManager.add_timer h m t).2.q_ros = m.q_ros := by
      show (TimerQueue.add_timer h m.q_ros t).2 = m.q_ros
      rw [e1]
    have hq3 : (TimerManager.add_timer h m t).2.q_steady = m.q_steady := by
      show (TimerQueue.add_timer
        (TimerQueue.add_timer (TimerQueue.add_timer h m.q_ros t).1 m.q_system t).1
        m.q_steady t).2 = m.q_steady
      rw [e3]
    constructor
    · unfold hookCountM
      rw [hq1, hq3]
      simp only [hh1, hh3, if_neg, if_false]
      split <;> simp
    · unfold regCountM
      rw [hq1, hq3]
      simp only [hg1, hg3, Bool.false_eq_true, if_false]
      split <;> simp
  | steady =>
    have e1 : TimerQueue.add_timer h m.q_ros t = (h, m.q_ros) := by
      refine add_timer_mismatch _ _ _ ?_
      rw [hct, htr]
      decide
    have e2 : TimerQueue.add_timer (TimerQueue.add_timer h m.q_ros t).1 m.q_system t =
        ((TimerQueue.add_timer h m.q_ros t).1, m.q_system) := by
      refine add_timer_mismatch _ _ _ ?_
      rw [hc1 t, hct, hts]
      decide
    have hq1 : (TimerManager.add_timer h m t).2.q_ros = m.q_ros := by
      show (TimerQueue.add_timer h m.q_ros t).2 = m.q_ros
      rw [e1]
    have hq2 : (TimerManager.add_timer h m t).2.q_system = m.q_system := by
      show (TimerQueue.add_timer (TimerQueue.add_timer h m.q_ros t).1 m.q_system t).2 =
        m.q_system
      rw [e2]
    constructor
    · unfold hookCountM
      rw [hq1, hq2]
      simp only [hh1, hh2, if_neg, if_false]
      split <;> simp
    · unfold regCountM
      rw [hq1, hq2]
      simp only [hg1, hg2, Bool.false_eq_true, if_false]
      split <;> simp

/-- C10 witness: a steady-clock timer broadcast over the fresh manager. -/
theorem c10_single_registration_witness :
    hookCountM TimerManager.init 9 = 0 ∧ regCountM TimerManager.init 9 = 0 ∧
    hookCountM (TimerManager.add_timer heapC4 TimerManager.init 9).2 9 ≤ 1 ∧
    regCountM (TimerManager.add_timer heapC4 TimerManager.init 9).2 9 ≤ 1 :=
  ⟨by decide, by decide,
    (c10_single_registration heapC4 TimerManager.init 9 rfl rfl rfl
      (by decide) (by decide)).2.1,
    (c10_single_registration heapC4 TimerManager.init 9 rfl rfl rfl
      (by decide) (by decide)).2.2⟩

lemma head_ref_not_in_rest (s : QState) (k : Int) (d : TimerData)
    (rest : List (Int × TimerData)) (hrun : s.running_timers = (k, d) :: rest)
    (hnd : refsNodup s) :
    ∀ e ∈ rest, e.2.rcl_ref ≠ d.rcl_ref := by
  unfold refsNodup at hnd
  rw [hrun, List.map_cons] at hnd
  rcases List.nodup_cons.mp hnd with ⟨hnot, _⟩
  intro e he hcontra
  exact hnot (hcontra ▸ List.mem_map_of_mem (fun e => e.2.rcl_ref) he)

lemma fire_step_inv (h : Heap) (s : QState) (k : Int) (d : TimerData)
    (rest : List (Int × TimerData))
    (hrun : s.running_timers = (k, d) :: rest)
    (hsort : sortedKeys s) (hacc : keysAccurate h s) (hper : periodsNonneg h s)
    (hnd : refsNodup s) :
    sortedKeys
      (TimerQueue.readd_timer_to_running_map
        (updateHeap h d.rcl_ref (rclTimerCallAdvance (h d.rcl_ref)))
        { s with running_timers := rest } d) ∧
    keysAccurate (updateHeap h d.rcl_ref (rclTimerCallAdvance (h d.rcl_ref)))
      (TimerQueue.readd_timer_to_running_map
        (updateHeap h d.rcl_ref (rclTimerCallAdvance (h d.rcl_ref)))
        { s with running_timers := rest } d) ∧
    periodsNonneg (updateHeap h d.rcl_ref (rclTimerCallAdvance (h d.rcl_ref)))
      (TimerQueue.readd_timer_to_running_map
        (updateHeap h d.rcl_ref (rclTimerCallAdvance (h d.rcl_ref)))
        { s with running_timers := rest } d) ∧
    refsNodup
      (TimerQueue.readd_timer_to_running_map
        (updateHeap h d.rcl_ref (rclTimerCallAdvance (h d.rcl_ref)))
        { s with running_timers := rest } d) ∧
    (∀ e ∈ (TimerQueue.readd_timer_to_running_map
        (updateHeap h d.rcl_ref (rclTimerCallAdvance (h d.rcl_ref)))
        { s with running_timers := rest } d).running_timers, k ≤ e.1) ∧
    (∀ lb : Int, (∀ e ∈ s.running_timers, lb ≤ e.1) →
      ∀ e ∈ (TimerQueue.readd_timer_to_running_map
        (updateHeap h d.rcl_ref (rclTimerCallAdvance (h d.rcl_ref)))
        { s with running_timers := rest } d).running_timers, lb ≤ e.1) := by
  have hk : (h d.rcl_ref).nextCallTime = k :=
    hacc (k, d) (by rw [hrun]; exact List.mem_cons_self _ _)
  have hpk : 0 ≤ (h d.rcl_ref).period :=
    hper (k, d) (by rw [hrun]; exact List.mem_cons_self _ _)
  have hkk2 : k ≤ (rclTimerCallAdvance (h d.rcl_ref)).nextCallTime := by
    unfold rclTimerCallAdvance
    simp only
    omega
  have hne := head_ref_not_in_rest s k d rest hrun hnd
  have hh2rest : ∀ e ∈ rest,
      updateHeap h d.rcl_ref (rclTimerCallAdvance (h d.rcl_ref)) e.2.rcl_ref =
      h e.2.rcl_ref :=
    fun e he => updateHeap_other h d.rcl_ref e.2.rcl_ref _ (hne e he)
  have htail_sorted : List.Pairwise (fun a b : Int × TimerData => a.1 ≤ b.1) rest := by
    have hs := hsort
    unfold sortedKeys at hs
    rw [hrun] at hs
    exact (List.pairwise_cons.mp hs).2
  have hhead_le : ∀ e ∈ rest, k ≤ e.1 := by
    have hs := hsort
    unfold sortedKeys at hs
    rw [hrun] at hs
    exact (List.pairwise_cons.mp hs).1
  have htail_nodup : (rest.map (fun e => e.2.rcl_ref)).Nodup := by
    have hn := hnd
    unfold refsNodup at hn
    rw [hrun, List.map_cons] at hn
    exact (List.nodup_cons.mp hn).2
  have hs2run :
      (TimerQueue.readd_timer_to_running_map
        (updateHeap h d.rcl_ref (rclTimerCallAdvance (h d.rcl_ref)))
        { s with running_timers := rest } d).running_timers = rest ∨
      (TimerQueue.readd_timer_to_running_map
        (updateHeap h d.rcl_ref (rclTimerCallAdvance (h d.rcl_ref)))
        { s with running_timers := rest } d).running_timers =
        mmInsert (rclTimerCallAdvance (h d.rcl_ref)).nextCallTime d rest := by
    unfold TimerQueue.readd_timer_to_running_map
    by_cases hu : (rclTimerCallAdvance (h d.rcl_ref)).unique
    · left
      simp [updateHeap_same, hu]
    · by_cases hv : (rclTimerCallAdvance (h d.rcl_ref)).valid
      · right
        simp [updateHeap_same, hu, hv]
      · left
        simp [updateHeap_same, hu, hv]
  have hs2mem : ∀ e ∈ (TimerQueue.readd_timer_to_running_map
      (updateHeap h d.rcl_ref (rclTimerCallAdvance (h d.rcl_ref)))
      { s with running_timers := rest } d).running_timers,
      e = ((rclTimerCallAdvance (h d.rcl_ref)).nextCallTime, d) ∨ e ∈ rest := by
    intro e he
    rcases hs2run with hr | hr
    · rw [hr] at he
      exact Or.inr he
    · rw [hr] at he
      exact (mem_mmInsert _ d rest e).mp he
  refine ⟨?_, ?_, ?_, ?_, ?_, ?_⟩
  · unfold sortedKeys
    rcases hs2run with hr | hr <;> rw [hr]
    · exact htail_sorted
    · exact pairwise_mmInsert _ d rest htail_sorted
  · intro e he
    rcases hs2mem e he with rfl | he2
    · rw [updateHeap_same]
    · rw [hh2rest e he2]
      exact hacc e (by rw [hrun]; exact List.mem_cons_of_mem _ he2)
  · intro e he
    rcases hs2mem e he with rfl | he2
    · rw [updateHeap_same]
      exact hpk
    · rw [hh2rest e he2]
      exact hper e (by rw [hrun]; exact List.mem_cons_of_mem _ he2)
  · unfold refsNodup
    rcases hs2run with hr | hr <;> rw [hr]
    · exact htail_nodup
    · have hperm :=
        (mmInsert_perm (rclTimerCallAdvance (h d.rcl_ref)).nextCallTime d rest).map
          (fun e => e.2.rcl_ref)
      refine hperm.nodup_iff.mpr ?_
      rw [List.map_cons]
      have hn := hnd
      unfold refsNodup at hn
      rw [hrun, List.map_cons] at hn
      exact hn
  · intro e he
    rcases hs2mem e he with rfl | he2
    · exact hkk2
    · exact hhead_le e he2
  · intro lb hlb e he
    rcases hs2mem e he with rfl | he2
    · exact le_trans (hlb (k, d) (by rw [hrun]; exact List.mem_cons_self _ _)) hkk2
    · exact hlb e (by rw [hrun]; exact List.mem_cons_of_mem _ he2)

lemma drain_aux (now : Int) (fuel : Nat) :
    ∀ (h : Heap) (s : QState),
      sortedKeys s → keysAccurate h s → periodsNonneg h s → refsNodup s →
      (∀ lb : Int, (∀ e ∈ s.running_timers, lb ≤ e.1) →
         ∀ p ∈ (TimerQueue.call_ready_timer_callbacks now fuel h s).2.2, lb ≤ p.1) ∧
      List.Chain' (fun a b : Int => a ≤ b)
        (((TimerQueue.call_ready_timer_callbacks now fuel h s).2.2).map Prod.fst) := by
  induction fuel with
  | zero =>
    intro h s _ _ _ _
    constructor
    · intro lb _ p hp
      simp [TimerQueue.call_ready_timer_callbacks] at hp
    · simp [TimerQueue.call_ready_timer_callbacks]
  | succ f ih =>
    intro h s hsort hacc hper hnd
    rcases hrun : s.running_timers with _ | ⟨e0, rest⟩
    · constructor
      · intro lb _ p hp
        simp [TimerQueue.call_ready_timer_callbacks, hrun] at hp
      · simp [TimerQueue.call_ready_timer_callbacks, hrun]
    · obtain ⟨k, d⟩ := e0
      by_cases hc : (h d.rcl_ref).canceled
      · -- cancelled head: the entry is erased and the pass continues on the tail
        have hs1 : sortedKeys { s with running_timers := rest } := by
          have hs := hsort
          unfold sortedKeys at hs ⊢
          rw [hrun] at hs
          exact (List.pairwise_cons.mp hs).2
        have ha1 : keysAccurate h { s with running_timers := rest } := fun e he =>
          hacc e (by rw [hrun]; exact List.mem_cons_of_mem _ he)
        have hp1 : periodsNonneg h { s with running_timers := rest } := fun e he =>
          hper e (by rw [hrun]; exact List.mem_cons_of_mem _ he)
        have hn1 : refsNodup { s with running_timers := rest } := by
          have hn := hnd
          unfold refsNodup at hn ⊢
          rw [hrun, List.map_cons] at hn
          exact (List.nodup_cons.mp hn).2
        rcases ih h { s with running_timers := rest } hs1 ha1 hp1 hn1 with ⟨ihA, ihB⟩
        constructor
        · intro lb hlb p hp
          simp only [TimerQueue.call_ready_timer_callbacks, hrun, hc, if_pos] at hp
          refine ihA lb ?_ p hp
          intro e he
          exact hlb e (List.mem_cons_of_mem _ he)
        · simp only [TimerQueue.call_ready_timer_callbacks, hrun, hc, if_pos]
          exact ihB
      · by_cases hd : (h d.rcl_ref).nextCallTime - now ≤ 0
        · -- due head: the callback fires at key k, the node is re-added
          rcases fire_step_inv h s k d rest hrun hsort hacc hper hnd with
            ⟨hs2, ha2, hp2, hn2, hbk, hblb⟩
          rcases ih (updateHeap h d.rcl_ref (rclTimerCallAdvance (h d.rcl_ref)))
              (TimerQueue.readd_timer_to_running_map
                (updateHeap h d.rcl_ref (rclTimerCallAdvance (h d.rcl_ref)))
                { s with running_timers := rest } d) hs2 ha2 hp2 hn2 with ⟨ihA, ihB⟩
          constructor
          · intro lb hlb p hp
            simp only [TimerQueue.call_ready_timer_callbacks, hrun, hc, hd, if_pos,
              if_neg, Bool.false_eq_true, if_false, List.mem_cons] at hp
            rcases hp with rfl | hp2x
            · exact hlb (k, d) (List.mem_cons_self _ _)
            · refine ihA lb (hblb lb ?_) p hp2x
              rw [hrun]
              exact hlb
          · simp only [TimerQueue.call_ready_timer_callbacks, hrun, hc, hd, if_pos,
              if_neg, Bool.false_eq_true, if_false, List.map_cons]
            refine List.chain'_cons'.mpr ⟨?_, ihB⟩
            intro y hy
            have hy2 := List.mem_of_mem_head? hy
            rcases List.mem_map.mp hy2 with ⟨p, hp, rfl⟩
            exact ihA k hbk p hp
        · -- head not yet due: the pass stops
          constructor
          · intro lb hlb p hp
            simp [TimerQueue.call_ready_timer_callbacks, hrun, hc, hd] at hp
          · simp [TimerQueue.call_ready_timer_callbacks, hrun, hc, hd]

/-- C1: one drain pass (`call_ready_timer_callbacks`) of a queue satisfying
the spec's data-model invariants (key-sorted index, every entry keyed at its
timer's current next-call-time, nonnegative periods, one entry per handle)
processes due timers earliest-expiry-first: the keys at which the
ready-callbacks of the pass fire form a nondecreasing sequence; a pass whose
earliest entry is not yet due (time until next call > 0) does nothing; a
cancelled earliest entry is dropped from the index and the pass continues;
and a due earliest entry is re-armed, its ready-callback fires exactly once
for the occurrence (one trace element), after which the entry is reinserted
keyed by the recomputed next-call-time — or dropped when the handle is no
longer externally referenced or no longer reports a next-call-time. -/
theorem c1_drain_pass (now : Int) (fuel : Nat) (h : Heap) (s : QState)
    (hso : sortedKeys s) (hac : keysAccurate h s) (hpe : periodsNonneg h s)
    (hnd : refsNodup s) :
    List.Chain' (fun a b : Int => a ≤ b)
      (((TimerQueue.call_ready_timer_callbacks now fuel h s).2.2).map Prod.fst) ∧
    (∀ (k : Int) (d : TimerData) (rest : List (Int × TimerData)),
      s.running_timers = (k, d) :: rest →
      (h d.rcl_ref).canceled = false → 0 < (h d.rcl_ref).nextCallTime - now →
      TimerQueue.call_ready_timer_callbacks now fuel h s = (h, s, [])) ∧
    (∀ (k : Int) (d : TimerData) (rest : List (Int × TimerData)) (f2 : Nat),
      fuel = f2 + 1 → s.running_timers = (k, d) :: rest →
      (h d.rcl_ref).canceled = true →
      TimerQueue.call_ready_timer_callbacks now fuel h s =
        TimerQueue.call_ready_timer_callbacks now f2 h
          { s with running_timers := rest }) ∧
    (∀ (k : Int) (d : TimerData) (rest : List (Int × TimerData)) (f2 : Nat),
      fuel = f2 + 1 → s.running_timers = (k, d) :: rest →
      (h d.rcl_ref).canceled = false → (h d.rcl_ref).nextCallTime - now ≤ 0 →
      (TimerQueue.call_ready_timer_callbacks now fuel h s).2.2 =
        (k, d) ::
          (TimerQueue.call_ready_timer_callbacks now f2
            (updateHeap h d.rcl_ref (rclTimerCallAdvance (h d.rcl_ref)))
            (TimerQueue.readd_timer_to_running_map
              (updateHeap h d.rcl_ref (rclTimerCallAdvance (h d.rcl_ref)))
              { s with running_timers := rest } d)).2.2 ∧
      ((rclTimerCallAdvance (h d.rcl_ref)).unique = false →
        (rclTimerCallAdvance (h d.rcl_ref)).valid = true →
        (TimerQueue.readd_timer_to_running_map
            (updateHeap h d.rcl_ref (rclTimerCallAdvance (h d.rcl_ref)))
            { s with running_timers := rest } d).running_timers =
          mmInsert (rclTimerCallAdvance (h d.rcl_ref)).nextCallTime d rest) ∧
      ((rclTimerCallAdvance (h d.rcl_ref)).unique = true ∨
        (rclTimerCallAdvance (h d.rcl_ref)).valid = false →
        (TimerQueue.readd_timer_to_running_map
            (updateHeap h d.rcl_ref (rclTimerCallAdvance (h d.rcl_ref)))
            { s with running_timers := rest } d).running_timers = rest)) := by
  refine ⟨(drain_aux now fuel h s hso hac hpe hnd).2, ?_, ?_, ?_⟩
  · intro k d rest hrun hcanc hdue
    cases fuel with
    | zero => rfl
    | succ f =>
      have hnotdue : ¬((h d.rcl_ref).nextCallTime - now ≤ 0) := by omega
      simp [TimerQueue.call_ready_timer_callbacks, hrun, hcanc, hnotdue]
  · intro k d rest f2 hf hrun hcanc
    subst hf
    simp [TimerQueue.call_ready_timer_callbacks, hrun, hcanc]
  · intro k d rest f2 hf hrun hcanc hdue
    subst hf
    refine ⟨?_, ?_, ?_⟩
    · simp [TimerQueue.call_ready_timer_callbacks, hrun, hcanc, hdue]
    · intro hu hv
      simp [TimerQueue.readd_timer_to_running_map, updateHeap_same, hu, hv]
    · intro huv
      rcases huv with hu | hv
      · simp [TimerQueue.readd_timer_to_running_map, updateHeap_same, hu]
      · by_cases hu : (rclTimerCallAdvance (h d.rcl_ref)).unique
        · simp [TimerQueue.readd_timer_to_running_map, updateHeap_same, hu]
        · simp [TimerQueue.readd_timer_to_running_map, updateHeap_same, hu, hv]

/-- C1 witness: a one-entry queue whose timer is due at `now = 5`. -/
theorem c1_drain_pass_witness :
    sortedKeys stateW ∧ keysAccurate heapW stateW ∧ periodsNonneg heapW stateW ∧
    refsNodup stateW ∧
    List.Chain' (fun a b : Int => a ≤ b)
      (((TimerQueue.call_ready_timer_callbacks 5 3 heapW stateW).2.2).map Prod.fst) :=
  ⟨by decide, by decide, by decide, by decide,
    (c1_drain_pass 5 3 heapW stateW (by decide) (by decide) (by decide) (by decide)).1⟩

end RclcppTimers
